import Mathlib

/-!
# pdf-to-png: verification of the command-line driver in `app.go`

`app.go` is a single `main` function: it validates its flags, opens the source
PDF, asks the external PDF library for the page count, renders every page to
`<absPath>/page_<n>.png`, collects per-page failures in `pdfInfo.Errors` and
optionally prints the record as JSON.

Embedding.  Everything outside the repository (the file system, the unipdf
reader and renderer, `filepath.Abs`, `json.MarshalIndent`) is a `World`: one
answer function per external call, each of which may depend on the whole
history of calls made so far, so a call may succeed or fail independently of
every other call.  `main` is a pure function from a `World` and the parsed
flags to a `Run`: the ordered trace of external calls and outputs, the process
exit code and the `pdfInfo` value held when the report stage is reached.

Go semantics that the embedding makes explicit:
* `os.Exit(c)` terminates the process at once; deferred functions do not run;
* `return` from `main` runs the deferred functions and then exits with code 0;
* `%d` prints a Go `int` in decimal (`toString` on `Int`);
* the loop counter takes the values `1 .. numPages + 1`, which stay inside the
  64-bit `int` range for every page count below `2^63 - 1` (the page count is
  the length of an in-memory page list), so it is modelled on `Int`.
-/

namespace PdfToPng

/-! ## Data model (app.go, lines 13-23) -/

/-- One per-page failure: `errorInfo` of app.go, lines 20-23. -/
structure errorInfo where
  PageNum : Int
  Reason : String
deriving DecidableEq

/-- The report record: `pdfInfo` of app.go, lines 13-18. -/
structure pdfInfo where
  Source : String
  Pages : Int
  Author : String
  Errors : List errorInfo
deriving DecidableEq

/-- A JSON document, as produced by `encoding/json`; objects keep the order of
their fields.  The text layout (indentation, escaping) is not modelled. -/
inductive JsonValue where
  | str (s : String)
  | num (n : Int)
  | arr (elems : List JsonValue)
  | obj (fields : List (String × JsonValue))

/-- The fields of a JSON object (none for any other value). -/
def JsonValue.fields : JsonValue → List (String × JsonValue)
  | .obj fs => fs
  | _ => []

/-- The keys of a JSON object, in order. -/
def JsonValue.keys (v : JsonValue) : List String :=
  v.fields.map Prod.fst

/-- Encoding of `errorInfo` under its struct tags `json:"page_num"` and
`json:"reason"` (lines 21-22): both fields are always written. -/
def marshalErrorInfo (e : errorInfo) : JsonValue :=
  .obj [("page_num", .num e.PageNum), ("reason", .str e.Reason)]

/-- Encoding of `pdfInfo` under its struct tags (lines 14-17): `source` and
`pages` are always written; `author,omitempty` is left out for a string of
length 0 and `errors,omitempty` for a slice of length 0. -/
def marshalPdfInfo (p : pdfInfo) : JsonValue :=
  .obj ([("source", .str p.Source), ("pages", .num p.Pages)]
    ++ (if p.Author.length = 0 then [] else [("author", .str p.Author)])
    ++ (if p.Errors.length = 0 then [] else [("errors", .arr (p.Errors.map marshalErrorInfo))]))

/-! ## The external world and the trace of a run -/

/-- A page object handed out by `pdfDoc.GetPage`. -/
structure PdfPage where
  id : Nat
deriving DecidableEq

/-- The parsed command-line flags (lines 26-30). -/
structure Flags where
  source : String
  destination : String
  width : Int
  jsonOutput : Bool
deriving DecidableEq

/-- One observable step of `main`: an external call together with its outcome,
or an output.  An `Option String` outcome is a Go `error` (`none` is `nil`). -/
inductive Event where
  /-- Text written to standard output by `fmt.Println` or `fmt.Printf`. -/
  | stdout (text : String)
  /-- The JSON document written by `fmt.Println(string(b))`, line 128. -/
  | stdoutJson (v : JsonValue)
  /-- A call of `flag.Usage()`, line 34. -/
  | usage
  /-- The call `os.Stat(*source)`, line 38, and whether `os.IsNotExist` holds. -/
  | statSource (path : String) (notExist : Bool)
  /-- The call `os.Stat(*destination)`, line 43. -/
  | statDestination (path : String) (notExist : Bool)
  /-- The call `os.Mkdir(*destination, os.ModePerm)`, line 45. -/
  | mkdir (path : String) (err : Option String)
  /-- The call `os.Open(*source)`, line 51. -/
  | openFile (path : String) (err : Option String)
  /-- The call `f.Close()` of the deferred function, line 58. -/
  | closeFile (err : Option String)
  /-- The call `model.NewPdfReader(f)`, line 66. -/
  | newPdfReader (err : Option String)
  /-- The call `pdfDoc.GetNumPages()`, line 72. -/
  | getNumPages (res : Except String Int)
  /-- The call `filepath.Abs(*destination)`, line 83. -/
  | abs (path : String) (res : Except String String)
  /-- The call `pdfDoc.GetPage(pageNum)`, line 99. -/
  | getPage (pageNum : Int) (res : Except String PdfPage)
  /-- The call `device.RenderToPath(page, destFile)`, line 113, made in the
  iteration for `pageNum` with the device width `width`. -/
  | renderToPath (pageNum : Int) (page : PdfPage) (width : Int) (path : String)
      (err : Option String)
  /-- A failure of `json.MarshalIndent`, line 123. -/
  | marshalFailed (err : String)

/-- The behaviour of everything outside the repository.  Each answer may depend
on the trace of the run so far. -/
structure World where
  statNotExist : List Event → String → Bool
  mkdir : List Event → String → Option String
  openFile : List Event → String → Option String
  closeFile : List Event → Option String
  newPdfReader : List Event → Option String
  getNumPages : List Event → Except String Int
  abs : List Event → String → Except String String
  getPage : List Event → Int → Except String PdfPage
  renderToPath : List Event → PdfPage → Int → String → Option String
  marshalIndent : List Event → Option String

/-- The result of running `main`. -/
structure Run where
  /-- External calls and outputs, oldest first. -/
  trace : List Event
  /-- The exit code of the process. -/
  exitCode : Nat
  /-- The value of `pdfInfo` at line 122, when the run gets there. -/
  report : Option pdfInfo

/-! ## The program -/

/-- The deferred function of lines 57-63, run when `main` returns: close the
source file; a close error is printed and the process exits with code 1,
otherwise `main` has returned and the exit code is 0. -/
def deferredClose (w : World) (t : List Event) (report : Option pdfInfo) : Run :=
  match w.closeFile t with
  | some err => ⟨t ++ [.closeFile (some err), .stdout ("Error: " ++ err ++ "\n")], 1, report⟩
  | none => ⟨t ++ [.closeFile none], 0, report⟩

/-- Where the code before the page loop ends up. -/
inductive Setup where
  /-- The process has terminated before the page loop. -/
  | halted (r : Run)
  /-- Line 98 is reached with this trace, page count, report record and
  absolute destination path. -/
  | ready (trace : List Event) (numPages : Int) (info : pdfInfo) (absPath : String)

/-- Lines 51-95: open the source, load the document, count its pages and
resolve the destination. -/
def loadDocument (w : World) (fl : Flags) (t : List Event) : Setup :=
  match w.openFile t fl.source with
  | some err =>
    .halted ⟨t ++ [.openFile fl.source (some err), .stdout ("Error: " ++ err ++ "\n")], 1, none⟩
  | none =>
    let t1 := t ++ [.openFile fl.source none]
    match w.newPdfReader t1 with
    | some err =>
      .halted ⟨t1 ++ [.newPdfReader (some err), .stdout ("Error opening PDF: " ++ err ++ "\n")],
        1, none⟩
    | none =>
      let t2 := t1 ++ [.newPdfReader none]
      match w.getNumPages t2 with
      | .error err =>
        .halted ⟨t2 ++ [.getNumPages (.error err),
          .stdout ("Error opening PDF: " ++ err ++ "\n")], 1, none⟩
      | .ok numPages =>
        let t3 := t2 ++ [.getNumPages (.ok numPages)]
        let info : pdfInfo := ⟨fl.source, numPages, "", []⟩
        match w.abs t3 fl.destination with
        | .error err =>
          .halted (deferredClose w
            (t3 ++ [.abs fl.destination (.error err), .stdout ("Error: " ++ err ++ "\n")]) none)
        | .ok absPath =>
          .ready (t3 ++ [.abs fl.destination (.ok absPath),
            .stdout ("Destination: " ++ absPath ++ "\n"),
            .stdout ("Pages: " ++ toString numPages ++ "\n")]) numPages info absPath

/-- Lines 32-95: argument checks, destination directory, then `loadDocument`. -/
def setup (w : World) (fl : Flags) : Setup :=
  if fl.source = "" ∨ fl.destination = "" then
    .halted ⟨[.stdout "Both '--source' and '--destination' arguments are required.\n", .usage],
      1, none⟩
  else
    let srcMissing := w.statNotExist [] fl.source
    let t1 : List Event := [.statSource fl.source srcMissing]
    if srcMissing then
      .halted ⟨t1 ++ [.stdout ("Error: File " ++ fl.source ++ " does not exist\n")], 1, none⟩
    else
      let dstMissing := w.statNotExist t1 fl.destination
      let t2 := t1 ++ [.statDestination fl.destination dstMissing]
      if dstMissing then
        match w.mkdir t2 fl.destination with
        | some err => .halted ⟨t2 ++ [.mkdir fl.destination (some err)], 0, none⟩
        | none => loadDocument w fl (t2 ++ [.mkdir fl.destination none])
      else
        loadDocument w fl t2

/-- The output file of a page: `fmt.Sprintf("%s/page_%d.png", absPath, pageNum)`,
line 110. -/
def destFile (absPath : String) (pageNum : Int) : String :=
  absPath ++ "/page_" ++ toString pageNum ++ ".png"

/-- The mutable state of the page loop: the trace and the report record. -/
structure LoopState where
  trace : List Event
  info : pdfInfo

/-- The page loop, lines 98-120, entered with counter `pageNum`. -/
def pageLoop (w : World) (width : Int) (absPath : String) (numPages : Int)
    (pageNum : Int) (st : LoopState) : LoopState :=
  if pageNum ≤ numPages then
    match w.getPage st.trace pageNum with
    | .error err =>
      pageLoop w width absPath numPages (pageNum + 1)
        ⟨st.trace ++ [.getPage pageNum (.error err),
            .stdout ("Error opening PDF: " ++ err ++ "\n")],
          { st.info with Errors := st.info.Errors ++
              [⟨pageNum, "Error getting page " ++ toString pageNum ++ ": " ++ err⟩] }⟩
    | .ok page =>
      let t1 := st.trace ++ [.getPage pageNum (.ok page)]
      match w.renderToPath t1 page width (destFile absPath pageNum) with
      | some err =>
        pageLoop w width absPath numPages (pageNum + 1)
          ⟨t1 ++ [.renderToPath pageNum page width (destFile absPath pageNum) (some err)],
            { st.info with Errors := st.info.Errors ++
                [⟨pageNum,
                  "Error creating image from page " ++ toString pageNum ++ ": " ++ err⟩] }⟩
      | none =>
        pageLoop w width absPath numPages (pageNum + 1)
          ⟨t1 ++ [.renderToPath pageNum page width (destFile absPath pageNum) none], st.info⟩
  else
    st
termination_by (numPages + 1 - pageNum).toNat
decreasing_by all_goals omega

/-- Lines 122-129 followed by the deferred close: print the report as JSON when
`--json` is set, then return from `main`. -/
def emitReport (w : World) (fl : Flags) (t : List Event) (info : pdfInfo) : Run :=
  if fl.jsonOutput then
    match w.marshalIndent t with
    | some err =>
      deferredClose w
        (t ++ [.marshalFailed err, .stdout ("Error marshaling PDF info to JSON: " ++ err ++ "\n")])
        (some info)
    | none => deferredClose w (t ++ [.stdoutJson (marshalPdfInfo info)]) (some info)
  else
    deferredClose w t (some info)

/-- The whole of `main`, lines 25-130. -/
def main (w : World) (fl : Flags) : Run :=
  match setup w fl with
  | .halted r => r
  | .ready t numPages info absPath =>
    let st := pageLoop w fl.width absPath numPages 1 ⟨t, info⟩
    emitReport w fl st.trace st.info

/-! ## Observations on a trace -/

/-- The page indices requested from `GetPage`, in call order. -/
def getPageCalls (t : List Event) : List Int :=
  t.filterMap fun
    | .getPage i _ => some i
    | _ => none

/-- The page index of every failed `GetPage` or `RenderToPath` call, in call
order. -/
def failedPages (t : List Event) : List Int :=
  t.filterMap fun
    | .getPage i (.error _) => some i
    | .renderToPath i _ _ _ (some _) => some i
    | _ => none

/-- Whether `GetPage(i)` failed or `RenderToPath` for page `i` failed in the
trace. -/
def pageFailed (t : List Event) (i : Int) : Bool :=
  t.any fun
    | .getPage j (.error _) => j == i
    | .renderToPath j _ _ _ (some _) => j == i
    | _ => false

/-- The results of the `GetNumPages` calls of a trace. -/
def numPagesResults (t : List Event) : List (Except String Int) :=
  t.filterMap fun
    | .getNumPages r => some r
    | _ => none

/-- The results of the `filepath.Abs` calls of a trace. -/
def absResults (t : List Event) : List (Except String String) :=
  t.filterMap fun
    | .abs _ r => some r
    | _ => none

/-- The outcomes of the `os.Open` calls of a trace. -/
def openResults (t : List Event) : List (Option String) :=
  t.filterMap fun
    | .openFile _ r => some r
    | _ => none

/-- The outcomes of the `os.Mkdir` calls of a trace. -/
def mkdirResults (t : List Event) : List (Option String) :=
  t.filterMap fun
    | .mkdir _ r => some r
    | _ => none

/-- The outcomes of the `f.Close` calls of a trace. -/
def closeResults (t : List Event) : List (Option String) :=
  t.filterMap fun
    | .closeFile r => some r
    | _ => none

/-- The texts written to standard output, in order (the JSON document apart). -/
def stdoutTexts (t : List Event) : List String :=
  t.filterMap fun
    | .stdout s => some s
    | _ => none

/-- The JSON documents written to standard output. -/
def jsonDocuments (t : List Event) : List JsonValue :=
  t.filterMap fun
    | .stdoutJson v => some v
    | _ => none

/-- The page indices `p, p + 1, ..., n` in ascending order (empty when
`n < p`). -/
def pagesFrom (p n : Int) : List Int :=
  (List.range (n + 1 - p).toNat).map fun (k : Nat) => p + (k : Int)

/-! ## Decimal numerals -/

/-- The number denoted by a string of decimal digits, most significant digit
first. -/
def decimalValue (ds : List Char) : Nat :=
  ds.foldl (fun acc c => 10 * acc + (c.toNat - 48)) 0

/-- The string `d` is the decimal representation of `n` with no leading zero and
no padding: it is a non-empty string of the characters `0` to `9`, does not
start with `0`, and denotes `n`. -/
def IsDecimalOf (d : String) (n : Int) : Prop :=
  d.data ≠ [] ∧ (∀ c ∈ d.data, c.isDigit = true) ∧ d.data.head? ≠ some '0' ∧
    (decimalValue d.data : Int) = n

instance (d : String) (n : Int) : Decidable (IsDecimalOf d n) := by
  unfold IsDecimalOf
  infer_instance

/-! ## What one pass of the page loop leaves behind -/

/-- How the iteration for one page ends. -/
inductive PageOutcome where
  /-- The call `GetPage` failed (lines 101-108). -/
  | fetchFailed (err : String)
  /-- The call `GetPage` returned `page` and `RenderToPath` failed (lines 113-119). -/
  | renderFailed (page : PdfPage) (err : String)
  /-- The call `GetPage` returned `page` and `RenderToPath` succeeded. -/
  | rendered (page : PdfPage)

/-- The events of the iteration for page `i`. -/
def pageEvents (width : Int) (absPath : String) (i : Int) : PageOutcome → List Event
  | .fetchFailed err =>
    [.getPage i (.error err), .stdout ("Error opening PDF: " ++ err ++ "\n")]
  | .renderFailed page err =>
    [.getPage i (.ok page), .renderToPath i page width (destFile absPath i) (some err)]
  | .rendered page =>
    [.getPage i (.ok page), .renderToPath i page width (destFile absPath i) none]

/-- The entries appended to `pdfInfo.Errors` by the iteration for page `i`. -/
def pageErrors (i : Int) : PageOutcome → List errorInfo
  | .fetchFailed err => [⟨i, "Error getting page " ++ toString i ++ ": " ++ err⟩]
  | .renderFailed _ err => [⟨i, "Error creating image from page " ++ toString i ++ ": " ++ err⟩]
  | .rendered _ => []

/-- The events of consecutive iterations starting at page `p`. -/
def loopEvents (width : Int) (absPath : String) : Int → List PageOutcome → List Event
  | _, [] => []
  | p, o :: os => pageEvents width absPath p o ++ loopEvents width absPath (p + 1) os

/-- The error entries of consecutive iterations starting at page `p`. -/
def loopErrors : Int → List PageOutcome → List errorInfo
  | _, [] => []
  | p, o :: os => pageErrors p o ++ loopErrors (p + 1) os

/-! ## Classification of events and of the ways `setup` can end -/

/-- The failures after which `main` calls `os.Exit(1)`: the source does not
exist, `os.Open` fails, `NewPdfReader` fails, `GetNumPages` fails, or the
deferred `f.Close` fails. -/
def fatalEvent : Event → Bool
  | .statSource _ true => true
  | .openFile _ (some _) => true
  | .newPdfReader (some _) => true
  | .getNumPages (.error _) => true
  | .closeFile (some _) => true
  | _ => false

/-- The events between the destination check and the page loop of a run that
reaches the loop (lines 51-90). -/
def loadedEvents (fl : Flags) (numPages : Int) (absPath : String) : List Event :=
  [.openFile fl.source none, .newPdfReader none, .getNumPages (.ok numPages),
    .abs fl.destination (.ok absPath), .stdout ("Destination: " ++ absPath ++ "\n"),
    .stdout ("Pages: " ++ toString numPages ++ "\n")]

/-- The two traces with which `setup` can reach `os.Open`: the destination
exists, or it has just been created. -/
def openedWith (fl : Flags) (pre : List Event) : Prop :=
  pre = [.statSource fl.source false, .statDestination fl.destination false] ∨
  pre = [.statSource fl.source false, .statDestination fl.destination true,
    .mkdir fl.destination none]

/-- What holds of the result of `setup`, case by case. -/
def SetupSpec (fl : Flags) : Setup → Prop
  | .halted r =>
    r.report = none ∧ (r.exitCode = 0 ∨ r.exitCode = 1) ∧
    (r.exitCode = 1 ↔ (fl.source = "" ∨ fl.destination = "" ∨ r.trace.any fatalEvent = true)) ∧
    (∀ a, Except.ok a ∉ absResults r.trace) ∧
    (∀ p e, Event.mkdir p (some e) ∈ r.trace →
      r.trace = [.statSource fl.source false, .statDestination fl.destination true,
        .mkdir fl.destination (some e)] ∧ r.exitCode = 0)
  | .ready t numPages info absPath =>
    fl.source ≠ "" ∧ fl.destination ≠ "" ∧ info = ⟨fl.source, numPages, "", []⟩ ∧
    ∃ pre, openedWith fl pre ∧
      t = pre ++ loadedEvents fl numPages absPath

/-- The events after the page loop (lines 122-129 and the deferred close),
together with the exit code they lead to. -/
def ReportTail (fl : Flags) (info : pdfInfo) (exitCode : Nat) (tail : List Event) : Prop :=
  ∃ out close, tail = out ++ close ∧
    ((fl.jsonOutput = false ∧ out = []) ∨
      (fl.jsonOutput = true ∧ out = [.stdoutJson (marshalPdfInfo info)]) ∨
      (fl.jsonOutput = true ∧ ∃ e, out = [.marshalFailed e,
        .stdout ("Error marshaling PDF info to JSON: " ++ e ++ "\n")])) ∧
    ((close = [.closeFile none] ∧ exitCode = 0) ∨
      (∃ e, close = [.closeFile (some e), .stdout ("Error: " ++ e ++ "\n")] ∧ exitCode = 1))

/-! ## Sample worlds -/

/-- Flags of the sample runs: text mode. -/
def sampleFlags : Flags := ⟨"in.pdf", "out", 400, false⟩

/-- Flags of the sample runs: JSON mode. -/
def sampleJsonFlags : Flags := ⟨"in.pdf", "out", 400, true⟩

/-- A three-page document in an existing destination: `GetPage(2)` fails, the
rendering of page 3 fails, everything else succeeds. -/
def sampleWorld : World where
  statNotExist := fun _ _ => false
  mkdir := fun _ _ => none
  openFile := fun _ _ => none
  closeFile := fun _ => none
  newPdfReader := fun _ => none
  getNumPages := fun _ => .ok 3
  abs := fun _ p => .ok ("/work/" ++ p)
  getPage := fun _ i => if i = 2 then .error "bad page" else .ok ⟨i.toNat⟩
  renderToPath := fun _ page _ _ => if page.id = 3 then some "disk full" else none
  marshalIndent := fun _ => none

/-- The destination does not exist (the source does) and `os.Mkdir` fails. -/
def mkdirFailWorld : World :=
  { sampleWorld with
    statNotExist := fun t _ => !t.isEmpty
    mkdir := fun _ _ => some "permission denied" }

/-- The source opens but `model.NewPdfReader` rejects it. -/
def readerFailWorld : World :=
  { sampleWorld with newPdfReader := fun _ => some "not a PDF" }

/-- The source opens and parses but `pdfDoc.GetNumPages` fails. -/
def numPagesFailWorld : World :=
  { sampleWorld with getNumPages := fun _ => .error "broken page tree" }

/-- A one-page document whose page is fetched but cannot be rendered. -/
def renderFailWorld : World :=
  { sampleWorld with
    getNumPages := fun _ => .ok 1
    getPage := fun _ i => .ok ⟨i.toNat⟩
    renderToPath := fun _ _ _ _ => some "disk full" }

/-- The trace of the sample run up to the end of the page loop. -/
def sampleLoopTrace : List Event :=
  [.statSource "in.pdf" false, .statDestination "out" false, .openFile "in.pdf" none,
    .newPdfReader none, .getNumPages (.ok 3), .abs "out" (.ok "/work/out"),
    .stdout "Destination: /work/out\n", .stdout "Pages: 3\n",
    .getPage 1 (.ok ⟨1⟩), .renderToPath 1 ⟨1⟩ 400 "/work/out/page_1.png" none,
    .getPage 2 (.error "bad page"), .stdout "Error opening PDF: bad page\n",
    .getPage 3 (.ok ⟨3⟩), .renderToPath 3 ⟨3⟩ 400 "/work/out/page_3.png" (some "disk full")]

/-- The report record of the sample run. -/
def sampleReport : pdfInfo :=
  ⟨"in.pdf", 3, "", [⟨2, "Error getting page 2: bad page"⟩,
    ⟨3, "Error creating image from page 3: disk full"⟩]⟩

/-! # Proofs -/

/-! ## The code before the page loop -/

theorem loadDocument_spec (w : World) (fl : Flags) (pre : List Event)
    (hs : fl.source ≠ "") (hd : fl.destination ≠ "") (hpre : openedWith fl pre) :
    SetupSpec fl (loadDocument w fl pre) := by
  unfold loadDocument deferredClose
  dsimp only
  rcases hpre with rfl | rfl
  all_goals
    repeat' split
  all_goals simp [SetupSpec, loadedEvents, fatalEvent, absResults, openedWith, hs, hd, *]

theorem setup_spec (w : World) (fl : Flags) : SetupSpec fl (setup w fl) := by
  unfold setup
  by_cases h : fl.source = "" ∨ fl.destination = ""
  · rw [if_pos h]
    simp [SetupSpec, fatalEvent, absResults, h]
  · rw [if_neg h]
    push_neg at h
    cases h1 : w.statNotExist [] fl.source
    · cases h2 : w.statNotExist [Event.statSource fl.source false] fl.destination
      · simp only [h2, Bool.false_eq_true, if_false, List.singleton_append]
        exact loadDocument_spec w fl _ h.1 h.2 (Or.inl rfl)
      · simp only [h2, if_true, Bool.false_eq_true, if_false, List.singleton_append, List.cons_append, List.nil_append]
        split
        · simp [SetupSpec, fatalEvent, absResults, h.1, h.2]
        · exact loadDocument_spec w fl _ h.1 h.2 (Or.inr rfl)
    · simp [SetupSpec, fatalEvent, absResults, h.1, h.2]


/-! ## Page ranges -/

theorem pagesFrom_one_three : pagesFrom 1 3 = [1, 2, 3] := by decide

theorem pagesFrom_of_lt {p n : Int} (h : n < p) : pagesFrom p n = [] := by
  have : (n + 1 - p).toNat = 0 := by omega
  simp [pagesFrom, this]

theorem pagesFrom_cons {p n : Int} (h : p ≤ n) :
    pagesFrom p n = p :: pagesFrom (p + 1) n := by
  have hk : (n + 1 - p).toNat = (n + 1 - (p + 1)).toNat + 1 := by omega
  unfold pagesFrom
  rw [hk, List.range_succ_eq_map]
  simp only [List.map_cons, List.map_map, Nat.cast_zero, add_zero, List.cons.injEq, true_and]
  apply List.map_congr_left
  intro k _
  show p + ((k + 1 : Nat) : Int) = p + 1 + (k : Int)
  push_cast
  ring

theorem mem_pagesFrom {p n i : Int} : i ∈ pagesFrom p n ↔ p ≤ i ∧ i ≤ n := by
  unfold pagesFrom
  simp only [List.mem_map, List.mem_range]
  constructor
  · rintro ⟨k, hk, rfl⟩
    omega
  · rintro ⟨h1, h2⟩
    exact ⟨(i - p).toNat, by omega, by omega⟩

theorem pagesFrom_pairwise (p n : Int) : (pagesFrom p n).Pairwise (· < ·) := by
  unfold pagesFrom
  rw [List.pairwise_map]
  exact (List.pairwise_lt_range _).imp (by intro a b h; simpa using h)

/-! ## The page loop -/

/-- The loop from counter `p` runs one iteration for each of the pages
`p .. numPages`: it extends the trace by the events of those iterations and the
error list by their entries, and changes nothing else. -/
theorem pageLoop_eq (w : World) (width : Int) (absPath : String) (numPages : Int) :
    ∀ (k : Nat) (p : Int) (st : LoopState), (numPages + 1 - p).toNat = k →
      ∃ outs : List PageOutcome, outs.length = k ∧
        (pageLoop w width absPath numPages p st).trace
          = st.trace ++ loopEvents width absPath p outs ∧
        (pageLoop w width absPath numPages p st).info
          = { st.info with Errors := st.info.Errors ++ loopErrors p outs } := by
  intro k
  induction k with
  | zero =>
    intro p st hk
    refine ⟨[], rfl, ?_, ?_⟩
    · rw [pageLoop, if_neg (by omega)]
      simp [loopEvents]
    · rw [pageLoop, if_neg (by omega)]
      simp [loopErrors]
  | succ k ih =>
    intro p st hk
    have hp : p ≤ numPages := by omega
    have hk1 : (numPages + 1 - (p + 1)).toNat = k := by omega
    rw [pageLoop, if_pos hp]
    split
    · rename_i err _
      obtain ⟨outs, hlen, ht, hi⟩ := ih (p + 1) _ hk1
      refine ⟨.fetchFailed err :: outs, by simp [hlen], ?_, ?_⟩
      · rw [ht]
        simp [loopEvents, pageEvents]
      · rw [hi]
        simp [loopErrors, pageErrors]
    · rename_i page _
      dsimp only
      split
      · rename_i err _
        obtain ⟨outs, hlen, ht, hi⟩ := ih (p + 1) _ hk1
        refine ⟨.renderFailed page err :: outs, by simp [hlen], ?_, ?_⟩
        · rw [ht]
          simp [loopEvents, pageEvents]
        · rw [hi]
          simp [loopErrors, pageErrors]
      · obtain ⟨outs, hlen, ht, hi⟩ := ih (p + 1) _ hk1
        refine ⟨.rendered page :: outs, by simp [hlen], ?_, ?_⟩
        · rw [ht]
          simp [loopEvents, pageEvents]
        · rw [hi]
          simp [loopErrors, pageErrors]

/-! ## Facts about the events of the page loop -/

theorem getPageCalls_append (s t : List Event) :
    getPageCalls (s ++ t) = getPageCalls s ++ getPageCalls t := by
  simp [getPageCalls]

theorem failedPages_append (s t : List Event) :
    failedPages (s ++ t) = failedPages s ++ failedPages t := by
  simp [failedPages]

theorem getPageCalls_pageEvents (width : Int) (absPath : String) (i : Int) (o : PageOutcome) :
    getPageCalls (pageEvents width absPath i o) = [i] := by
  cases o <;> simp [pageEvents, getPageCalls]

theorem failedPages_pageEvents (width : Int) (absPath : String) (i : Int) (o : PageOutcome) :
    failedPages (pageEvents width absPath i o) = (pageErrors i o).map errorInfo.PageNum := by
  cases o <;> simp [pageEvents, pageErrors, failedPages]

theorem getPageCalls_loopEvents (width : Int) (absPath : String) (n : Int) :
    ∀ (outs : List PageOutcome) (p : Int), outs.length = (n + 1 - p).toNat →
      getPageCalls (loopEvents width absPath p outs) = pagesFrom p n := by
  intro outs
  induction outs with
  | nil =>
    intro p h
    simp only [List.length_nil] at h
    rw [pagesFrom_of_lt (by omega)]
    rfl
  | cons o os ih =>
    intro p h
    simp only [List.length_cons] at h
    rw [pagesFrom_cons (by omega), loopEvents, getPageCalls_append, getPageCalls_pageEvents,
      ih (p + 1) (by omega)]
    rfl

theorem failedPages_loopEvents (width : Int) (absPath : String) :
    ∀ (outs : List PageOutcome) (p : Int),
      failedPages (loopEvents width absPath p outs)
        = (loopErrors p outs).map errorInfo.PageNum := by
  intro outs
  induction outs with
  | nil => intro p; rfl
  | cons o os ih =>
    intro p
    rw [loopEvents, loopErrors, failedPages_append, failedPages_pageEvents, ih, List.map_append]

theorem loopErrors_sublist (n : Int) :
    ∀ (outs : List PageOutcome) (p : Int), outs.length = (n + 1 - p).toNat →
      ((loopErrors p outs).map errorInfo.PageNum).Sublist (pagesFrom p n) := by
  intro outs
  induction outs with
  | nil => intro p _; simp [loopErrors]
  | cons o os ih =>
    intro p h
    simp only [List.length_cons] at h
    rw [pagesFrom_cons (by omega), loopErrors, List.map_append]
    have hrec := ih (p + 1) (by omega)
    cases o with
    | fetchFailed err => simpa [pageErrors] using hrec
    | renderFailed page err => simpa [pageErrors] using hrec
    | rendered page => simpa [pageErrors] using hrec.cons p

theorem loopEvents_covers (width : Int) (absPath : String) (n : Int) :
    ∀ (outs : List PageOutcome) (p : Int), outs.length = (n + 1 - p).toNat →
      ∀ i, p ≤ i → i ≤ n →
        (∃ page, Event.renderToPath i page width (destFile absPath i) none
            ∈ loopEvents width absPath p outs) ∨
        (∃ e ∈ loopErrors p outs, e.PageNum = i) := by
  intro outs
  induction outs with
  | nil =>
    intro p h i h1 h2
    simp only [List.length_nil] at h
    omega
  | cons o os ih =>
    intro p h i h1 h2
    simp only [List.length_cons] at h
    rw [loopEvents, loopErrors]
    by_cases hi : i = p
    · subst hi
      cases o with
      | fetchFailed err => right; simp [pageErrors]
      | renderFailed page err => right; simp [pageErrors]
      | rendered page => left; exact ⟨page, by simp [pageEvents]⟩
    · rcases ih (p + 1) (by omega) i (by omega) h2 with ⟨page, hm⟩ | ⟨e, he, hei⟩
      · exact Or.inl ⟨page, List.mem_append_right _ hm⟩
      · exact Or.inr ⟨e, List.mem_append_right _ he, hei⟩

/-- The events of the loop are `GetPage` calls, `RenderToPath` calls on the
file of the page, and the message printed after a failed `GetPage`. -/
theorem mem_loopEvents (width : Int) (absPath : String) :
    ∀ (outs : List PageOutcome) (p : Int) (ev : Event),
      ev ∈ loopEvents width absPath p outs →
        (∃ i r, p ≤ i ∧ ev = .getPage i r) ∨
        (∃ i page err, p ≤ i ∧ ev = .renderToPath i page width (destFile absPath i) err) ∨
        (∃ err, ev = .stdout ("Error opening PDF: " ++ err ++ "\n")) := by
  intro outs
  induction outs with
  | nil => intro p ev h; simp [loopEvents] at h
  | cons o os ih =>
    intro p ev h
    rw [loopEvents, List.mem_append] at h
    rcases h with h | h
    · cases o with
      | fetchFailed err =>
        simp only [pageEvents, List.mem_cons, List.mem_singleton, List.not_mem_nil, or_false] at h
        rcases h with rfl | rfl
        · exact Or.inl ⟨p, _, le_refl _, rfl⟩
        · exact Or.inr (Or.inr ⟨err, rfl⟩)
      | renderFailed page err =>
        simp only [pageEvents, List.mem_cons, List.mem_singleton, List.not_mem_nil, or_false] at h
        rcases h with rfl | rfl
        · exact Or.inl ⟨p, _, le_refl _, rfl⟩
        · exact Or.inr (Or.inl ⟨p, page, _, le_refl _, rfl⟩)
      | rendered page =>
        simp only [pageEvents, List.mem_cons, List.mem_singleton, List.not_mem_nil, or_false] at h
        rcases h with rfl | rfl
        · exact Or.inl ⟨p, _, le_refl _, rfl⟩
        · exact Or.inr (Or.inl ⟨p, page, _, le_refl _, rfl⟩)
    · rcases ih (p + 1) ev h with ⟨i, r, hi, rfl⟩ | ⟨i, page, err, hi, rfl⟩ | ⟨err, rfl⟩
      · exact Or.inl ⟨i, r, by omega, rfl⟩
      · exact Or.inr (Or.inl ⟨i, page, err, by omega, rfl⟩)
      · exact Or.inr (Or.inr ⟨err, rfl⟩)

theorem pageFailed_iff (t : List Event) (i : Int) :
    pageFailed t i = true ↔ i ∈ failedPages t := by
  unfold pageFailed failedPages
  rw [List.any_eq_true, List.mem_filterMap]
  apply exists_congr
  intro ev
  apply and_congr_right
  intro _
  cases ev with
  | getPage j r => cases r <;> simp
  | renderToPath j page width path err => cases err <;> simp
  | _ => simp

/-! ## The shape of a whole run -/

theorem emitReport_spec (w : World) (fl : Flags) (t : List Event) (info : pdfInfo) :
    ∃ tail, (emitReport w fl t info).trace = t ++ tail ∧
      (emitReport w fl t info).report = some info ∧
      ReportTail fl info (emitReport w fl t info).exitCode tail := by
  unfold emitReport deferredClose ReportTail
  cases hj : fl.jsonOutput
  · simp only [Bool.false_eq_true, if_false]
    split
    · rename_i e _
      exact ⟨_, rfl, rfl, [], _, rfl, Or.inl ⟨trivial, rfl⟩, Or.inr ⟨e, rfl, rfl⟩⟩
    · exact ⟨_, rfl, rfl, [], _, rfl, Or.inl ⟨trivial, rfl⟩, Or.inl ⟨rfl, rfl⟩⟩
  · simp only [if_true]
    split
    · rename_i m _
      split
      · rename_i e _
        exact ⟨_, by rw [List.append_assoc], rfl, _, _, rfl, Or.inr (Or.inr ⟨trivial, m, rfl⟩),
          Or.inr ⟨e, rfl, rfl⟩⟩
      · exact ⟨_, by rw [List.append_assoc], rfl, _, _, rfl, Or.inr (Or.inr ⟨trivial, m, rfl⟩),
          Or.inl ⟨rfl, rfl⟩⟩
    · split
      · rename_i e _
        exact ⟨_, by rw [List.append_assoc], rfl, _, _, rfl, Or.inr (Or.inl ⟨trivial, rfl⟩),
          Or.inr ⟨e, rfl, rfl⟩⟩
      · exact ⟨_, by rw [List.append_assoc], rfl, _, _, rfl, Or.inr (Or.inl ⟨trivial, rfl⟩),
          Or.inl ⟨rfl, rfl⟩⟩

/-- Every run either ends in `setup`, or consists of the events of `setup`, the
events of one loop iteration per page `1 .. numPages`, and the report events. -/
theorem main_cases (w : World) (fl : Flags) :
    SetupSpec fl (.halted (main w fl)) ∨
    ∃ pre numPages absPath outs tail,
      fl.source ≠ "" ∧ fl.destination ≠ "" ∧ openedWith fl pre ∧
      outs.length = (numPages + 1 - 1).toNat ∧
      (main w fl).trace = pre ++ loadedEvents fl numPages absPath
        ++ loopEvents fl.width absPath 1 outs ++ tail ∧
      (main w fl).report = some ⟨fl.source, numPages, "", loopErrors 1 outs⟩ ∧
      ReportTail fl ⟨fl.source, numPages, "", loopErrors 1 outs⟩ (main w fl).exitCode tail := by
  have hs := setup_spec w fl
  unfold main
  cases h : setup w fl with
  | halted r =>
    left
    rw [h] at hs
    exact hs
  | ready t numPages info absPath =>
    right
    rw [h] at hs
    obtain ⟨h1, h2, rfl, pre, hpre, rfl⟩ := hs
    obtain ⟨outs, hlen, ht, hi⟩ :=
      pageLoop_eq w fl.width absPath numPages _ 1
        ⟨pre ++ loadedEvents fl numPages absPath, ⟨fl.source, numPages, "", []⟩⟩ rfl
    have hinfo : (pageLoop w fl.width absPath numPages 1
        ⟨pre ++ loadedEvents fl numPages absPath, ⟨fl.source, numPages, "", []⟩⟩).info
          = ⟨fl.source, numPages, "", loopErrors 1 outs⟩ := by
      rw [hi]
      simp
    obtain ⟨tail, htr, hrep, htail⟩ := emitReport_spec w fl
      (pageLoop w fl.width absPath numPages 1
        ⟨pre ++ loadedEvents fl numPages absPath, ⟨fl.source, numPages, "", []⟩⟩).trace
      (pageLoop w fl.width absPath numPages 1
        ⟨pre ++ loadedEvents fl numPages absPath, ⟨fl.source, numPages, "", []⟩⟩).info
    refine ⟨pre, numPages, absPath, outs, tail, h1, h2, hpre, hlen, ?_, ?_, ?_⟩
    · exact htr.trans (by rw [ht])
    · exact hrep.trans (by rw [hinfo])
    · generalize hc : (emitReport w fl
        (pageLoop w fl.width absPath numPages 1
          ⟨pre ++ loadedEvents fl numPages absPath, ⟨fl.source, numPages, "", []⟩⟩).trace
        (pageLoop w fl.width absPath numPages 1
          ⟨pre ++ loadedEvents fl numPages absPath, ⟨fl.source, numPages, "", []⟩⟩).info).exitCode
          = c at htail
      rw [hinfo] at htail
      exact hc ▸ htail

/-! ## Projections of the parts of a run -/

theorem loopEvents_filterMap_nil {α : Type} (f : Event → Option α)
    (h1 : ∀ i r, f (.getPage i r) = none)
    (h2 : ∀ i page width path err, f (.renderToPath i page width path err) = none)
    (h3 : ∀ s, f (.stdout s) = none)
    (width : Int) (absPath : String) (p : Int) (outs : List PageOutcome) :
    (loopEvents width absPath p outs).filterMap f = [] := by
  rw [List.filterMap_eq_nil_iff]
  intro ev hev
  rcases mem_loopEvents width absPath outs p ev hev with
    ⟨i, r, _, rfl⟩ | ⟨i, page, err, _, rfl⟩ | ⟨err, rfl⟩
  · exact h1 _ _
  · exact h2 _ _ _ _ _
  · exact h3 _

theorem pre_projections (fl : Flags) (pre : List Event) (h : openedWith fl pre) :
    getPageCalls pre = [] ∧ failedPages pre = [] ∧ numPagesResults pre = [] ∧
    absResults pre = [] ∧ jsonDocuments pre = [] ∧
    (∀ e, e ∈ mkdirResults pre → e = none) ∧ pre.any fatalEvent = false ∧
    (∀ i page width path err, Event.renderToPath i page width path err ∉ pre) := by
  rcases h with rfl | rfl <;>
    simp [getPageCalls, failedPages, numPagesResults, absResults, jsonDocuments,
      mkdirResults, fatalEvent]

theorem loaded_projections (fl : Flags) (n : Int) (a : String) :
    getPageCalls (loadedEvents fl n a) = [] ∧ failedPages (loadedEvents fl n a) = [] ∧
    numPagesResults (loadedEvents fl n a) = [.ok n] ∧
    absResults (loadedEvents fl n a) = [.ok a] ∧ jsonDocuments (loadedEvents fl n a) = [] ∧
    mkdirResults (loadedEvents fl n a) = [] ∧ (loadedEvents fl n a).any fatalEvent = false ∧
    (∀ i page width path err,
      Event.renderToPath i page width path err ∉ loadedEvents fl n a) := by
  simp [loadedEvents, getPageCalls, failedPages, numPagesResults, absResults, jsonDocuments,
    mkdirResults, fatalEvent]

theorem tail_projections (fl : Flags) (info : pdfInfo) (c : Nat) (tail : List Event)
    (h : ReportTail fl info c tail) :
    getPageCalls tail = [] ∧ failedPages tail = [] ∧ numPagesResults tail = [] ∧
    absResults tail = [] ∧ (∀ v ∈ jsonDocuments tail, v = marshalPdfInfo info) ∧
    mkdirResults tail = [] ∧ (c = 0 ∨ c = 1) ∧ (c = 1 ↔ tail.any fatalEvent = true) ∧
    (∀ i page width path err, Event.renderToPath i page width path err ∉ tail) := by
  obtain ⟨out, close, rfl, hout, hclose⟩ := h
  rcases hout with ⟨_, rfl⟩ | ⟨_, rfl⟩ | ⟨_, m, rfl⟩ <;>
    rcases hclose with ⟨rfl, rfl⟩ | ⟨e, rfl, rfl⟩ <;>
    simp [getPageCalls, failedPages, numPagesResults, absResults, jsonDocuments,
      mkdirResults, fatalEvent]

theorem mem_numPagesResults {t : List Event} {r : Except String Int}
    (h : Event.getNumPages r ∈ t) : r ∈ numPagesResults t := by
  unfold numPagesResults
  rw [List.mem_filterMap]
  exact ⟨_, h, rfl⟩

theorem mem_absResults {t : List Event} {p : String} {r : Except String String}
    (h : Event.abs p r ∈ t) : r ∈ absResults t := by
  unfold absResults
  rw [List.mem_filterMap]
  exact ⟨_, h, rfl⟩

theorem mem_mkdirResults {t : List Event} {p : String} {r : Option String}
    (h : Event.mkdir p r ∈ t) : r ∈ mkdirResults t := by
  unfold mkdirResults
  rw [List.mem_filterMap]
  exact ⟨_, h, rfl⟩

theorem sublist_filter_mem {l₁ l₂ : List Int} (h : l₁.Sublist l₂) (hn : l₂.Nodup) :
    l₂.filter (fun x => decide (x ∈ l₁)) = l₁ := by
  induction h with
  | slnil => rfl
  | @cons l₁ l₂ a hs ih =>
    rw [List.nodup_cons] at hn
    have ha : a ∉ l₁ := fun hm => hn.1 (hs.subset hm)
    rw [List.filter_cons_of_neg (by simpa using ha)]
    exact ih hn.2
  | @cons₂ l₁ l₂ a hs ih =>
    rw [List.nodup_cons] at hn
    rw [List.filter_cons_of_pos (by simp)]
    congr 1
    rw [← ih hn.2]
    apply List.filter_congr
    intro x hx
    have hxa : x ≠ a := fun hxa => hn.1 (hxa ▸ hx)
    simp [hxa, ih hn.2]

/-- In a run that reaches the page loop, the page count and the absolute
destination seen in the trace are those the loop works with. -/
theorem ready_params {w : World} {fl : Flags} {pre : List Event} {n : Int}
    {a : String} {outs : List PageOutcome} {tail : List Event} {info : pdfInfo} {c : Nat}
    (hpre : openedWith fl pre) (htail : ReportTail fl info c tail)
    (ht : (main w fl).trace
      = pre ++ loadedEvents fl n a ++ loopEvents fl.width a 1 outs ++ tail) :
    (∀ m, Event.getNumPages (.ok m) ∈ (main w fl).trace → m = n) ∧
    (∀ p b, Event.abs p (.ok b) ∈ (main w fl).trace → b = a) := by
  have hp := pre_projections fl pre hpre
  have hl := loaded_projections fl n a
  have htl := tail_projections fl info c tail htail
  constructor
  · intro m h
    have := mem_numPagesResults h
    rw [ht] at this
    simp only [numPagesResults, List.filterMap_append] at this
    rw [loopEvents_filterMap_nil _ (by simp) (by simp) (by simp)] at this
    simp only [numPagesResults] at hp hl htl
    rw [hp.2.2.1, hl.2.2.1, htl.2.2.1] at this
    simpa using this
  · intro p b h
    have := mem_absResults h
    rw [ht] at this
    simp only [absResults, List.filterMap_append] at this
    rw [loopEvents_filterMap_nil _ (by simp) (by simp) (by simp)] at this
    simp only [absResults] at hp hl htl
    rw [hp.2.2.2.1, hl.2.2.2.1, htl.2.2.2.1] at this
    simpa using this

theorem loopEvents_any_fatal (width : Int) (absPath : String) (p : Int)
    (outs : List PageOutcome) : (loopEvents width absPath p outs).any fatalEvent = false := by
  rw [List.any_eq_false]
  intro ev hev
  rcases mem_loopEvents width absPath outs p ev hev with
    ⟨i, r, _, rfl⟩ | ⟨i, page, err, _, rfl⟩ | ⟨err, rfl⟩ <;> simp [fatalEvent]

theorem any_fatal_iff (t : List Event) :
    t.any fatalEvent = true ↔
      ((∃ p, Event.statSource p true ∈ t) ∨
        (∃ p e, Event.openFile p (some e) ∈ t) ∨
        (∃ e, Event.newPdfReader (some e) ∈ t) ∨
        (∃ e, Event.getNumPages (.error e) ∈ t) ∨
        (∃ e, Event.closeFile (some e) ∈ t)) := by
  rw [List.any_eq_true]
  constructor
  · rintro ⟨ev, hev, hf⟩
    cases ev with
    | statSource p b =>
      cases b
      · simp [fatalEvent] at hf
      · exact Or.inl ⟨p, hev⟩
    | openFile p r =>
      cases r with
      | none => simp [fatalEvent] at hf
      | some e => exact Or.inr (Or.inl ⟨p, e, hev⟩)
    | newPdfReader r =>
      cases r with
      | none => simp [fatalEvent] at hf
      | some e => exact Or.inr (Or.inr (Or.inl ⟨e, hev⟩))
    | getNumPages r =>
      cases r with
      | ok n => simp [fatalEvent] at hf
      | error e => exact Or.inr (Or.inr (Or.inr (Or.inl ⟨e, hev⟩)))
    | closeFile r =>
      cases r with
      | none => simp [fatalEvent] at hf
      | some e => exact Or.inr (Or.inr (Or.inr (Or.inr ⟨e, hev⟩)))
    | _ => simp [fatalEvent] at hf
  · rintro (⟨p, h⟩ | ⟨p, e, h⟩ | ⟨e, h⟩ | ⟨e, h⟩ | ⟨e, h⟩) <;>
      exact ⟨_, h, by simp [fatalEvent]⟩

theorem exit_code_iff_any_fatal (w : World) (fl : Flags) :
    (main w fl).exitCode = 1 ↔
      (fl.source = "" ∨ fl.destination = "" ∨ (main w fl).trace.any fatalEvent = true) := by
  rcases main_cases w fl with hh | ⟨pre, n, a, outs, tail, hs, hd, hpre, hlen, ht, hrep, htail⟩
  · exact hh.2.2.1
  · have hp := pre_projections fl pre hpre
    have hl := loaded_projections fl n a
    have htl := tail_projections _ _ _ _ htail
    rw [ht, List.any_append, List.any_append, List.any_append, hp.2.2.2.2.2.2.1,
      hl.2.2.2.2.2.2.1, loopEvents_any_fatal, htl.2.2.2.2.2.2.2.1]
    simp [hs, hd]

theorem mkdir_failure_halts (w : World) (fl : Flags) (p e : String)
    (h : Event.mkdir p (some e) ∈ (main w fl).trace) : SetupSpec fl (.halted (main w fl)) := by
  rcases main_cases w fl with hh | ⟨pre, n, a, outs, tail, hs, hd, hpre, hlen, ht, hrep, htail⟩
  · exact hh
  · exfalso
    have hp := pre_projections fl pre hpre
    have hl := loaded_projections fl n a
    have htl := tail_projections _ _ _ _ htail
    have hm := mem_mkdirResults h
    rw [ht] at hm
    simp only [mkdirResults, List.filterMap_append, List.mem_append] at hm
    rw [loopEvents_filterMap_nil _ (by simp) (by simp) (by simp)] at hm
    simp only [mkdirResults] at hp hl htl
    rw [hl.2.2.2.2.2.1, htl.2.2.2.2.2.1] at hm
    simp only [List.not_mem_nil, or_false] at hm
    exact absurd (hp.2.2.2.2.2.1 _ hm) (by simp)

/-! ## Decimal printing of the page number -/

theorem digitChar_spec : ∀ k, k < 10 →
    (Nat.digitChar k).toNat - 48 = k ∧ (Nat.digitChar k).isDigit = true ∧
    (k ≠ 0 → Nat.digitChar k ≠ '0') := by
  decide

theorem toString_natCast (m : Nat) : toString (m : Int) = String.mk (Nat.toDigits 10 m) := rfl

theorem toDigitsCore_value : ∀ (fuel n : Nat) (ds : List Char), n < fuel →
    decimalValue (Nat.toDigitsCore 10 fuel n ds)
      = ds.foldl (fun acc c => 10 * acc + (c.toNat - 48)) n := by
  intro fuel
  induction fuel with
  | zero => intro n ds h; omega
  | succ fuel ih =>
    intro n ds h
    rw [Nat.toDigitsCore]
    have hd := (digitChar_spec (n % 10) (Nat.mod_lt _ (by decide))).1
    split
    · rename_i h0
      have hn : n % 10 = n := Nat.mod_eq_of_lt (by omega)
      rw [hn] at hd
      simp only [decimalValue, List.foldl_cons, Nat.mul_zero, Nat.zero_add, hn, hd]
    · rename_i h0
      rw [ih (n / 10) _ (by omega), List.foldl_cons, hd]
      congr 1
      omega

theorem toDigitsCore_isDigit : ∀ (fuel n : Nat) (ds : List Char),
    (∀ c ∈ ds, c.isDigit = true) → ∀ c ∈ Nat.toDigitsCore 10 fuel n ds, c.isDigit = true := by
  intro fuel
  induction fuel with
  | zero => intro n ds h; simpa [Nat.toDigitsCore] using h
  | succ fuel ih =>
    intro n ds h
    have hd := (digitChar_spec (n % 10) (Nat.mod_lt _ (by decide))).2.1
    have hds : ∀ c ∈ Nat.digitChar (n % 10) :: ds, c.isDigit = true := by
      intro c hc
      rcases List.mem_cons.mp hc with rfl | hc
      · exact hd
      · exact h c hc
    rw [Nat.toDigitsCore]
    split
    · exact hds
    · exact ih _ _ hds

theorem toDigitsCore_head : ∀ (fuel n : Nat) (ds : List Char), 0 < n → n < fuel →
    ∃ c rest, Nat.toDigitsCore 10 fuel n ds = c :: rest ∧ c ≠ '0' := by
  intro fuel
  induction fuel with
  | zero => intro n ds _ h; omega
  | succ fuel ih =>
    intro n ds hpos h
    rw [Nat.toDigitsCore]
    split
    · rename_i h0
      have hn : n % 10 ≠ 0 := by omega
      exact ⟨_, _, rfl, (digitChar_spec (n % 10) (Nat.mod_lt _ (by decide))).2.2 hn⟩
    · rename_i h0
      exact ih (n / 10) _ (by omega) (by omega)

/-- The decimal numeral printed for a positive number. -/
theorem toString_isDecimalOf (n : Int) (h : 1 ≤ n) : IsDecimalOf (toString n) n := by
  obtain ⟨m, rfl⟩ := Int.eq_ofNat_of_zero_le (by omega : 0 ≤ n)
  have hm : 0 < m := by omega
  rw [toString_natCast]
  obtain ⟨c, rest, hc, hne⟩ := toDigitsCore_head (m + 1) m [] hm (by omega)
  refine ⟨?_, ?_, ?_, ?_⟩
  · show Nat.toDigitsCore 10 (m + 1) m [] ≠ []
    rw [hc]
    simp
  · exact toDigitsCore_isDigit (m + 1) m [] (by simp)
  · show (Nat.toDigitsCore 10 (m + 1) m []).head? ≠ some '0'
    rw [hc]
    simpa using hne
  · show ((decimalValue (Nat.toDigitsCore 10 (m + 1) m []) : Nat) : Int) = (m : Int)
    rw [toDigitsCore_value (m + 1) m [] (by omega)]
    rfl

theorem destFile_data (absPath : String) (n : Int) :
    (destFile absPath n).data
      = absPath.data ++ ("/page_".data ++ ((toString n).data ++ ".png".data)) := by
  simp [destFile, String.data_append]

/-! ## Sample runs -/

theorem sample_run :
    (main sampleWorld sampleFlags).trace = sampleLoopTrace ++ [.closeFile none] ∧
    (main sampleWorld sampleFlags).report = some sampleReport ∧
    (main sampleWorld sampleFlags).exitCode = 0 := by
  simp [main, setup, loadDocument, sampleWorld, sampleFlags, pageLoop, emitReport,
    deferredClose, destFile, sampleLoopTrace, sampleReport]
  decide

theorem sample_json_run :
    (main sampleWorld sampleJsonFlags).trace
      = sampleLoopTrace ++ [.stdoutJson (marshalPdfInfo sampleReport), .closeFile none] ∧
    (main sampleWorld sampleJsonFlags).report = some sampleReport := by
  simp [main, setup, loadDocument, sampleWorld, sampleJsonFlags, pageLoop, emitReport,
    deferredClose, destFile, sampleLoopTrace, sampleReport]
  and_intros
  all_goals first | decide | rfl

theorem sample_getNumPages :
    Event.getNumPages (.ok 3) ∈ (main sampleWorld sampleFlags).trace := by
  rw [sample_run.1]
  simp [sampleLoopTrace]

theorem sample_abs :
    Event.abs sampleFlags.destination (.ok "/work/out") ∈ (main sampleWorld sampleFlags).trace := by
  rw [sample_run.1]
  simp [sampleLoopTrace, sampleFlags]

theorem mkdirFail_mem :
    Event.mkdir "out" (some "permission denied") ∈ (main mkdirFailWorld sampleFlags).trace := by
  have h : (main mkdirFailWorld sampleFlags).trace
      = [.statSource "in.pdf" false, .statDestination "out" true,
        .mkdir "out" (some "permission denied")] := rfl
  rw [h]
  simp

/-! ## The claims -/

/-- C1.  In every run in which `GetNumPages` returned `n` and `filepath.Abs`
returned `absPath`, whatever the outcomes of the `GetPage` and `RenderToPath`
calls, the pages requested from `GetPage` are exactly `1, 2, ..., n`, each once
and in that order, and for every `i` in `1..n` either `RenderToPath` was called
for page `i` on `absPath/page_i.png` and succeeded, or the `Errors` list of the
report has an entry whose `PageNum` is `i`. -/
theorem page_loop_attempts_every_page (w : World) (fl : Flags) (n : Int) (absPath : String)
    (hn : Event.getNumPages (.ok n) ∈ (main w fl).trace)
    (ha : Event.abs fl.destination (.ok absPath) ∈ (main w fl).trace) :
    getPageCalls (main w fl).trace = pagesFrom 1 n ∧
    ∀ i, 1 ≤ i → i ≤ n →
      (∃ page, Event.renderToPath i page fl.width (destFile absPath i) none
        ∈ (main w fl).trace) ∨
      (∃ info, (main w fl).report = some info ∧ ∃ e ∈ info.Errors, e.PageNum = i) := by
  rcases main_cases w fl with hh | ⟨pre, n', a', outs, tail, _, _, hpre, hlen, ht, hrep, htail⟩
  · exact absurd (mem_absResults ha) (hh.2.2.2.1 absPath)
  · obtain ⟨hn', ha'⟩ := ready_params hpre htail ht
    obtain rfl := hn' _ hn
    obtain rfl := ha' _ _ ha
    have hp := pre_projections fl pre hpre
    have hl := loaded_projections fl n absPath
    have htl := tail_projections _ _ _ _ htail
    constructor
    · rw [ht, getPageCalls_append, getPageCalls_append, getPageCalls_append, hp.1, hl.1, htl.1,
        getPageCalls_loopEvents fl.width absPath n outs 1 hlen]
      simp
    · intro i h1 h2
      rcases loopEvents_covers fl.width absPath n outs 1 hlen i h1 h2 with ⟨page, hm⟩ | he
      · left
        refine ⟨page, ?_⟩
        rw [ht]
        exact List.mem_append_left _ (List.mem_append_right _ hm)
      · right
        exact ⟨_, hrep, he⟩

/-- C1 at the sample run: three pages, of which the second cannot be fetched
and the third cannot be rendered. -/
theorem page_loop_attempts_every_page_witness :
    Event.getNumPages (.ok 3) ∈ (main sampleWorld sampleFlags).trace ∧
    Event.abs sampleFlags.destination (.ok "/work/out") ∈ (main sampleWorld sampleFlags).trace ∧
    (getPageCalls (main sampleWorld sampleFlags).trace = pagesFrom 1 3 ∧
      ∀ i, 1 ≤ i → i ≤ 3 →
        (∃ page, Event.renderToPath i page sampleFlags.width (destFile "/work/out" i) none
          ∈ (main sampleWorld sampleFlags).trace) ∨
        (∃ info, (main sampleWorld sampleFlags).report = some info ∧
          ∃ e ∈ info.Errors, e.PageNum = i)) :=
  ⟨sample_getNumPages, sample_abs,
    page_loop_attempts_every_page sampleWorld sampleFlags 3 "/work/out"
      sample_getNumPages sample_abs⟩

/-- C2.  In every run in which `GetNumPages` returned `n` and that reaches the
report stage with the record `info`, whatever pages failed to be fetched or
rendered, every entry of `info.Errors` has its `PageNum` in `[1, n]`, the
`PageNum` values are in (strictly) ascending order along the list, and the list
is empty when `n ≤ 0`. -/
theorem errors_in_range_and_ascending (w : World) (fl : Flags) (n : Int) (info : pdfInfo)
    (hn : Event.getNumPages (.ok n) ∈ (main w fl).trace)
    (hr : (main w fl).report = some info) :
    (∀ e ∈ info.Errors, 1 ≤ e.PageNum ∧ e.PageNum ≤ n) ∧
    (info.Errors.map errorInfo.PageNum).Pairwise (· < ·) ∧
    (n ≤ 0 → info.Errors = []) := by
  rcases main_cases w fl with hh | ⟨pre, n', a, outs, tail, _, _, hpre, hlen, ht, hrep, htail⟩
  · rw [hh.1] at hr
    exact absurd hr (by simp)
  · obtain rfl := (ready_params hpre htail ht).1 _ hn
    rw [hrep] at hr
    obtain rfl := Option.some.inj hr
    have hsub := loopErrors_sublist n outs 1 hlen
    refine ⟨?_, (pagesFrom_pairwise 1 n).sublist hsub, ?_⟩
    · intro e he
      exact mem_pagesFrom.mp (hsub.subset (List.mem_map_of_mem _ he))
    · intro h0
      have hnil : pagesFrom 1 n = [] := pagesFrom_of_lt (by omega)
      rw [hnil] at hsub
      simpa using hsub

/-- C2 at the sample run. -/
theorem errors_in_range_and_ascending_witness :
    Event.getNumPages (.ok 3) ∈ (main sampleWorld sampleFlags).trace ∧
    (main sampleWorld sampleFlags).report = some sampleReport ∧
    ((∀ e ∈ sampleReport.Errors, 1 ≤ e.PageNum ∧ e.PageNum ≤ 3) ∧
      (sampleReport.Errors.map errorInfo.PageNum).Pairwise (· < ·) ∧
      ((3 : Int) ≤ 0 → sampleReport.Errors = [])) :=
  ⟨sample_getNumPages, sample_run.2.1,
    errors_in_range_and_ascending sampleWorld sampleFlags 3 sampleReport
      sample_getNumPages sample_run.2.1⟩

/-- C3.  In every run that reaches the report stage with the record `info`:
`GetNumPages` was called once and returned `info.Pages`; the length of
`info.Errors` is the number of page indices `i` in `1..info.Pages` for which
`GetPage(i)` failed or `RenderToPath` for page `i` failed; and every JSON
document written is the encoding of `info`. -/
theorem report_pages_and_error_count (w : World) (fl : Flags) (info : pdfInfo)
    (hr : (main w fl).report = some info) :
    numPagesResults (main w fl).trace = [.ok info.Pages] ∧
    info.Errors.length
      = ((pagesFrom 1 info.Pages).filter (pageFailed (main w fl).trace)).length ∧
    (∀ v ∈ jsonDocuments (main w fl).trace, v = marshalPdfInfo info) := by
  rcases main_cases w fl with hh | ⟨pre, n, a, outs, tail, _, _, hpre, hlen, ht, hrep, htail⟩
  · rw [hh.1] at hr
    exact absurd hr (by simp)
  · rw [hrep] at hr
    obtain rfl := Option.some.inj hr
    have hp := pre_projections fl pre hpre
    have hl := loaded_projections fl n a
    have htl := tail_projections _ _ _ _ htail
    have hsub := loopErrors_sublist n outs 1 hlen
    have hfailed : failedPages (main w fl).trace
        = (loopErrors 1 outs).map errorInfo.PageNum := by
      rw [ht, failedPages_append, failedPages_append, failedPages_append, hp.2.1, hl.2.1,
        htl.2.1, failedPages_loopEvents]
      simp
    refine ⟨?_, ?_, ?_⟩
    · rw [ht]
      simp only [numPagesResults, List.filterMap_append]
      rw [loopEvents_filterMap_nil _ (by simp) (by simp) (by simp)]
      simp only [numPagesResults] at hp hl htl
      rw [hp.2.2.1, hl.2.2.1, htl.2.2.1]
      rfl
    · have hfilter : (pagesFrom 1 n).filter (pageFailed (main w fl).trace)
          = (pagesFrom 1 n).filter
              (fun x => decide (x ∈ (loopErrors 1 outs).map errorInfo.PageNum)) := by
        apply List.filter_congr
        intro x _
        rw [← hfailed, Bool.eq_iff_iff, pageFailed_iff]
        simp
      show (loopErrors 1 outs).length = _
      rw [hfilter, sublist_filter_mem hsub
        ((pagesFrom_pairwise 1 n).imp (fun h => ne_of_lt h)), List.length_map]
    · intro v hv
      rw [ht] at hv
      simp only [jsonDocuments, List.filterMap_append, List.mem_append] at hv
      rw [loopEvents_filterMap_nil _ (by simp) (by simp) (by simp)] at hv
      simp only [jsonDocuments] at hp hl htl
      rw [hp.2.2.2.2.1, hl.2.2.2.2.1] at hv
      simp only [List.not_mem_nil, or_false, false_or] at hv
      exact htl.2.2.2.2.1 v hv

/-- C3 at the sample run in JSON mode. -/
theorem report_pages_and_error_count_witness :
    (main sampleWorld sampleJsonFlags).report = some sampleReport ∧
    (numPagesResults (main sampleWorld sampleJsonFlags).trace = [.ok sampleReport.Pages] ∧
      sampleReport.Errors.length
        = ((pagesFrom 1 sampleReport.Pages).filter
            (pageFailed (main sampleWorld sampleJsonFlags).trace)).length ∧
      (∀ v ∈ jsonDocuments (main sampleWorld sampleJsonFlags).trace,
        v = marshalPdfInfo sampleReport)) :=
  ⟨sample_json_run.2,
    report_pages_and_error_count sampleWorld sampleJsonFlags sampleReport sample_json_run.2⟩

/-- C4.  The exit code of `main` is 0 or 1.  It is 1 if and only if the source
or destination argument is empty, or the source file does not exist, or opening
the source fails, or `NewPdfReader` fails, or `GetNumPages` fails, or closing
the source file fails; in every other run (whatever pages fail, and also when
`json.MarshalIndent` fails) it is 0.  A run in which creating the destination
directory fails exits with code 0. -/
theorem exit_code_one_iff_fatal (w : World) (fl : Flags) :
    ((main w fl).exitCode = 0 ∨ (main w fl).exitCode = 1) ∧
    ((main w fl).exitCode = 1 ↔
      (fl.source = "" ∨ fl.destination = "" ∨
        (∃ p, Event.statSource p true ∈ (main w fl).trace) ∨
        (∃ p e, Event.openFile p (some e) ∈ (main w fl).trace) ∨
        (∃ e, Event.newPdfReader (some e) ∈ (main w fl).trace) ∨
        (∃ e, Event.getNumPages (.error e) ∈ (main w fl).trace) ∨
        (∃ e, Event.closeFile (some e) ∈ (main w fl).trace))) ∧
    ((∃ p e, Event.mkdir p (some e) ∈ (main w fl).trace) → (main w fl).exitCode = 0) := by
  refine ⟨?_, ?_, ?_⟩
  · rcases main_cases w fl with hh | ⟨pre, n, a, outs, tail, _, _, hpre, hlen, ht, hrep, htail⟩
    · exact hh.2.1
    · exact (tail_projections _ _ _ _ htail).2.2.2.2.2.2.1
  · rw [← any_fatal_iff]
    exact exit_code_iff_any_fatal w fl
  · rintro ⟨p, e, h⟩
    exact ((mkdir_failure_halts w fl p e h).2.2.2.2 p e h).2

/-- C6 as the code has it.  In every run in which `os.Mkdir` fails, `main`
returns at once: the trace is the two `os.Stat` calls and the failed `os.Mkdir`
call and nothing else (the source is not opened, no page count is obtained, no
page is attempted, nothing is printed), no report is produced, and the exit
code is 0. -/
theorem mkdir_failure_returns_at_once (w : World) (fl : Flags) (p e : String)
    (h : Event.mkdir p (some e) ∈ (main w fl).trace) :
    (main w fl).trace = [.statSource fl.source false, .statDestination fl.destination true,
      .mkdir fl.destination (some e)] ∧
    (main w fl).exitCode = 0 ∧ (main w fl).report = none := by
  have hh := mkdir_failure_halts w fl p e h
  exact ⟨(hh.2.2.2.2 p e h).1, (hh.2.2.2.2 p e h).2, hh.1⟩

/-- C6 as stated fails: in this run the destination does not exist and
`os.Mkdir` fails, and `main` does not go on: it never calls `os.Open`, never
obtains a page count and never requests a page. -/
theorem mkdir_failure_does_not_continue :
    mkdirResults (main mkdirFailWorld sampleFlags).trace = [some "permission denied"] ∧
    openResults (main mkdirFailWorld sampleFlags).trace = [] ∧
    numPagesResults (main mkdirFailWorld sampleFlags).trace = [] ∧
    getPageCalls (main mkdirFailWorld sampleFlags).trace = [] ∧
    (main mkdirFailWorld sampleFlags).exitCode = 0 := by
  refine ⟨rfl, rfl, rfl, rfl, rfl⟩

/-- C6 as the code has it, at the run in which `os.Mkdir` fails. -/
theorem mkdir_failure_returns_at_once_witness :
    Event.mkdir "out" (some "permission denied") ∈ (main mkdirFailWorld sampleFlags).trace ∧
    ((main mkdirFailWorld sampleFlags).trace
        = [.statSource sampleFlags.source false, .statDestination sampleFlags.destination true,
          .mkdir sampleFlags.destination (some "permission denied")] ∧
      (main mkdirFailWorld sampleFlags).exitCode = 0 ∧
      (main mkdirFailWorld sampleFlags).report = none) :=
  ⟨mkdirFail_mem, mkdir_failure_returns_at_once mkdirFailWorld sampleFlags "out"
    "permission denied" mkdirFail_mem⟩

/-- C5 fails on the fatal exits.  When `NewPdfReader` or `GetNumPages` fails
after `os.Open` has succeeded, the process exits with code 1 through `os.Exit`
and the deferred `f.Close()` never runs: the trace has the successful open and
no close at all. -/
theorem fatal_exit_skips_close :
    (openResults (main readerFailWorld sampleFlags).trace = [none] ∧
      closeResults (main readerFailWorld sampleFlags).trace = [] ∧
      (main readerFailWorld sampleFlags).exitCode = 1) ∧
    (openResults (main numPagesFailWorld sampleFlags).trace = [none] ∧
      closeResults (main numPagesFailWorld sampleFlags).trace = [] ∧
      (main numPagesFailWorld sampleFlags).exitCode = 1) := by
  refine ⟨⟨rfl, rfl, rfl⟩, rfl, rfl, rfl⟩

/-- C7 fails for render failures.  In text mode, with one page that is fetched
but cannot be rendered, the failure is recorded in `Errors` and the run exits
with code 0, but standard output holds the two preamble lines only: no line
reports the failure. -/
theorem render_failure_is_not_printed :
    sampleFlags.jsonOutput = false ∧
    (main renderFailWorld sampleFlags).report
      = some ⟨"in.pdf", 1, "", [⟨1, "Error creating image from page 1: disk full"⟩]⟩ ∧
    pageFailed (main renderFailWorld sampleFlags).trace 1 = true ∧
    stdoutTexts (main renderFailWorld sampleFlags).trace
      = ["Destination: /work/out\n", "Pages: 1\n"] ∧
    jsonDocuments (main renderFailWorld sampleFlags).trace = [] := by
  simp [main, setup, loadDocument, sampleWorld, renderFailWorld, sampleFlags, pageLoop,
    emitReport, deferredClose, destFile, pageFailed, stdoutTexts, jsonDocuments]
  decide

/-- C8.  The JSON object written for a `pdfInfo` value always has the keys
`source` and `pages`; it has the key `errors` exactly when the `Errors` list is
non-empty and the key `author` exactly when the `Author` string is non-empty;
and the value of `errors` is an array with one element per entry of `Errors`,
each an object with exactly the keys `page_num` and `reason`. -/
theorem json_keys_and_omission (p : pdfInfo) :
    "source" ∈ (marshalPdfInfo p).keys ∧ "pages" ∈ (marshalPdfInfo p).keys ∧
    ("errors" ∈ (marshalPdfInfo p).keys ↔ p.Errors ≠ []) ∧
    ("author" ∈ (marshalPdfInfo p).keys ↔ p.Author ≠ "") ∧
    (∀ v, ("errors", v) ∈ (marshalPdfInfo p).fields →
      ∃ elems, v = .arr elems ∧ elems.length = p.Errors.length ∧
        ∀ el ∈ elems, el.keys = ["page_num", "reason"]) := by
  have hauth : p.Author.length = 0 ↔ p.Author = "" := by
    constructor
    · intro h
      exact String.ext (List.length_eq_zero.mp h)
    · intro h
      rw [h]
      rfl
  by_cases ha : p.Author = "" <;> by_cases he : p.Errors = [] <;>
    simp [marshalPdfInfo, JsonValue.keys, JsonValue.fields, marshalErrorInfo, hauth, ha, he]

/-- C9.  For every page number `n ≥ 1` and every destination `absPath`, the
file of page `n` is `absPath ++ "/page_" ++ d ++ ".png"` where `d` is the decimal
representation of `n` with no leading zero and no padding (page 1 gives
`page_1.png`, page 10 gives `page_10.png`); and in every run in which
`filepath.Abs` returned `absPath`, every `RenderToPath` call made for page `n`
is made on exactly that file. -/
theorem render_path_format (absPath : String) (n : Int) (h : 1 ≤ n) :
    (∃ d, destFile absPath n = absPath ++ "/page_" ++ d ++ ".png" ∧ IsDecimalOf d n) ∧
    destFile absPath 1 = absPath ++ "/page_1.png" ∧
    destFile absPath 10 = absPath ++ "/page_10.png" ∧
    (∀ (w : World) (fl : Flags) (page : PdfPage) (width : Int) (path : String)
        (err : Option String),
      Event.abs fl.destination (.ok absPath) ∈ (main w fl).trace →
      Event.renderToPath n page width path err ∈ (main w fl).trace →
        path = destFile absPath n) := by
  refine ⟨⟨toString n, rfl, toString_isDecimalOf n h⟩, ?_, ?_, ?_⟩
  · apply String.ext
    rw [destFile_data, String.data_append]
    rfl
  · apply String.ext
    rw [destFile_data, String.data_append]
    rfl
  · intro w fl page width path err ha hr
    rcases main_cases w fl with hh | ⟨pre, n', a', outs, tail, _, _, hpre, hlen, ht, hrep, htail⟩
    · exact absurd (mem_absResults ha) (hh.2.2.2.1 absPath)
    · obtain rfl := (ready_params hpre htail ht).2 _ _ ha
      have hp := pre_projections fl pre hpre
      have hl := loaded_projections fl n' absPath
      have htl := tail_projections _ _ _ _ htail
      rw [ht] at hr
      simp only [List.mem_append] at hr
      rcases hr with ((hr | hr) | hr) | hr
      · exact absurd hr (hp.2.2.2.2.2.2.2 _ _ _ _ _)
      · exact absurd hr (hl.2.2.2.2.2.2.2 _ _ _ _ _)
      · rcases mem_loopEvents _ _ _ _ _ hr with
          ⟨i, r, _, hev⟩ | ⟨i, pg, e, _, hev⟩ | ⟨e, hev⟩
        · exact absurd hev (by simp)
        · injection hev with h1 h2 h3 h4 h5
          rw [h4, h1]
        · exact absurd hev (by simp)
      · exact absurd hr (htl.2.2.2.2.2.2.2.2 _ _ _ _ _)

/-- C9 at page 10 of the sample destination. -/
theorem render_path_format_witness :
    (1 : Int) ≤ 10 ∧
    ((∃ d, destFile "/work/out" 10 = "/work/out" ++ "/page_" ++ d ++ ".png" ∧
        IsDecimalOf d 10) ∧
      destFile "/work/out" 1 = "/work/out" ++ "/page_1.png" ∧
      destFile "/work/out" 10 = "/work/out" ++ "/page_10.png" ∧
      (∀ (w : World) (fl : Flags) (page : PdfPage) (width : Int) (path : String)
          (err : Option String),
        Event.abs fl.destination (.ok "/work/out") ∈ (main w fl).trace →
        Event.renderToPath 10 page width path err ∈ (main w fl).trace →
          path = destFile "/work/out" 10)) :=
  ⟨by decide, render_path_format "/work/out" 10 (by decide)⟩

/-- C10.  For a fixed destination, distinct page numbers `m, n ≥ 1` get
distinct files: no page of a run is written over the file of another page. -/
theorem render_path_injective (absPath : String) (m n : Int) (hm : 1 ≤ m) (hn : 1 ≤ n)
    (hne : m ≠ n) : destFile absPath m ≠ destFile absPath n := by
  intro heq
  have hdata := congrArg String.data heq
  rw [destFile_data, destFile_data] at hdata
  have h1 := List.append_cancel_right (List.append_cancel_left (List.append_cancel_left hdata))
  have vm := (toString_isDecimalOf m hm).2.2.2
  have vn := (toString_isDecimalOf n hn).2.2.2
  rw [h1] at vm
  exact hne (vm.symm.trans vn)

/-- C10 at pages 1 and 10. -/
theorem render_path_injective_witness :
    (1 : Int) ≤ 1 ∧ (1 : Int) ≤ 10 ∧ (1 : Int) ≠ 10 ∧
    destFile "/work/out" 1 ≠ destFile "/work/out" 10 :=
  ⟨by decide, by decide, by decide,
    render_path_injective "/work/out" 1 10 (by decide) (by decide) (by decide)⟩

end PdfToPng
